import Mathlib

/-!
Verification development for the Dementia-Care knowledge-graph query engine
(`backend/app/knowledge_graph_engine.py` and
`backend/app/peswani_knowledge_graph.py`).

Strings are modelled as `List Char` (ASCII behaviour of Python `str.lower`,
`str.strip` and SQLite `LOWER`/`LIKE`).  The external library collaborators
(`re` pattern matching in the intent classifier, `difflib` similarity,
`json.loads`, `datetime.fromisoformat`) are abstracted as function
parameters; every piece of control flow of the source is embedded
explicitly.  The three small regular expressions the source applies itself
(the honorific stripper of `_normalize_name`, and the `Age (\d+)` /
`Age \d+, ([^,]+)` extractors of the Peswani engine) are embedded as
concrete matchers.
-/

namespace DementiaCare

/-! ## Python / SQL character primitives (ASCII model) -/

/-- Python whitespace for `str.strip` (ASCII part): space, `\t`, `\n`, `\r`,
`\x0b`, `\x0c`. -/
def isPySpace (c : Char) : Bool :=
  decide (c.toNat = 32 ∨ c.toNat = 9 ∨ c.toNat = 10 ∨ c.toNat = 13 ∨
    c.toNat = 11 ∨ c.toNat = 12)

/-- A word character for the regex `\b` boundary (`[A-Za-z0-9_]`, ASCII model). -/
def isWordChar (c : Char) : Bool :=
  decide ((48 ≤ c.toNat ∧ c.toNat ≤ 57) ∨ (65 ≤ c.toNat ∧ c.toNat ≤ 90) ∨
    (97 ≤ c.toNat ∧ c.toNat ≤ 122) ∨ c.toNat = 95)

/-- ASCII lower-casing of one character (model of Python `str.lower` and of
SQLite `LOWER`, which both map `A`-`Z` to `a`-`z` on ASCII input). -/
def pyLowerChar (c : Char) : Char :=
  if 65 ≤ c.toNat ∧ c.toNat ≤ 90 then Char.ofNat (c.toNat + 32) else c

/-- `s.lower()` on the ASCII model. -/
def pyLower (s : List Char) : List Char := s.map pyLowerChar

/-- `s.strip()`: drop leading and trailing whitespace. -/
def pyStrip (s : List Char) : List Char :=
  (s.dropWhile isPySpace).rdropWhile isPySpace

/-- `needle in hay` for Python strings: `needle` occurs contiguously in `hay`. -/
def containsSub (needle hay : List Char) : Bool :=
  match hay with
  | [] => needle.isEmpty
  | _ :: t => (hay.take needle.length == needle) || containsSub needle t

/-- `", ".join(xs)`. -/
def joinComma (xs : List (List Char)) : List Char :=
  List.intercalate (", ".toList) xs

/-- Decimal rendering of a number, as Python string interpolation does. -/
def natToStr (n : Nat) : List Char := (Nat.repr n).toList

/-- Python string interpolation of a nullable value: `None` prints as "None". -/
def showOpt (o : Option (List Char)) : List Char :=
  match o with
  | some s => s
  | none => "None".toList

/-- Equality of fallible results is decidable componentwise. -/
instance instDecEqExcept {ε α : Type} [DecidableEq ε] [DecidableEq α] :
    DecidableEq (Except ε α) := fun x y =>
  match x, y with
  | .ok a, .ok b =>
      if h : a = b then .isTrue (by rw [h]) else .isFalse (by intro he; cases he; exact h rfl)
  | .error a, .error b =>
      if h : a = b then .isTrue (by rw [h]) else .isFalse (by intro he; cases he; exact h rfl)
  | .ok _, .error _ => .isFalse (by intro he; cases he)
  | .error _, .ok _ => .isFalse (by intro he; cases he)

/-- The 60% similarity threshold (`0.6`) of the fuzzy matcher. -/
def simThreshold : ℚ := mkRat 3 5

/-! ## SQLite `LIKE` matching

`LOWER(col) LIKE '%' || fragment || '%'` is how both "exact" lookup steps of
`_find_person_by_name` test a name.  `%` matches any sequence, `_` any single
character, and letters compare ASCII-case-insensitively. -/

/-- Fuel-indexed `LIKE` matcher; the fuel only needs to exceed the sum of the
lengths, every recursive call shrinks pattern-plus-target. -/
def likeFuel : Nat → List Char → List Char → Bool
  | 0, _, _ => false
  | _ + 1, [], s => s.isEmpty
  | f + 1, c :: p, s =>
      if c = '%' then
        likeFuel f p s ||
          (match s with
           | [] => false
           | _ :: s' => likeFuel f (c :: p) s')
      else if c = '_' then
        (match s with
         | [] => false
         | _ :: s' => likeFuel f p s')
      else
        (match s with
         | [] => false
         | d :: s' => (pyLowerChar c == pyLowerChar d) && likeFuel f p s')

/-- SQLite `LIKE` (no ESCAPE clause). -/
def sqlLike (p s : List Char) : Bool := likeFuel (p.length + s.length + 1) p s

/-- The pattern `'%' || fragment || '%'` used by the engine's SQL queries. -/
def likePat (frag : List Char) : List Char := '%' :: (frag ++ ['%'])

/-! ## The honorific stripper of `_normalize_name`

`re.sub(r'\b(mr|mrs|ms|dr|prof)\.?\s*', '', name)`: scan left to right; at a
word boundary try the alternatives in order (`mr` before `mrs`, so the first
alternative that is a literal prefix wins), then greedily consume an optional
dot and any whitespace; replace the match with nothing and continue scanning
after it (the boundary test keeps looking at the original previous
character). -/

def titleList : List (List Char) :=
  ["mr".toList, "mrs".toList, "ms".toList, "dr".toList, "prof".toList]

/-- First alternative of the group that is a literal prefix of `cs`. -/
def takeTitle : List (List Char) → List Char → Option (List Char)
  | [], _ => none
  | t :: ts, cs => if cs.take t.length = t then some t else takeTitle ts cs

/-- Greedy `\.?\s*`: returns (consumed, rest). -/
def afterTitle (cs : List Char) : List Char × List Char :=
  match cs with
  | '.' :: rest => ('.' :: rest.takeWhile isPySpace, rest.dropWhile isPySpace)
  | _ => (cs.takeWhile isPySpace, cs.dropWhile isPySpace)

/-- Try the whole pattern (minus the boundary) at the current position;
returns (consumed, rest). -/
def matchTitleAt (cs : List Char) : Option (List Char × List Char) :=
  match takeTitle titleList cs with
  | none => none
  | some t =>
      let p := afterTitle (cs.drop t.length)
      some (t ++ p.1, p.2)

/-- Whether the character just before the scan position is a word character
(`false` at the start of the string). -/
def lastIsWord (consumed : List Char) (dflt : Bool) : Bool :=
  match consumed.getLast? with
  | some c => isWordChar c
  | none => dflt

/-- One fuel step per scan position; a title match always consumes at least
two characters, so `fuel = length` suffices. -/
def stripAux : Nat → Bool → List Char → List Char
  | 0, _, cs => cs
  | _ + 1, _, [] => []
  | fuel + 1, prevWord, c :: cs =>
      if prevWord then c :: stripAux fuel (isWordChar c) cs
      else
        match matchTitleAt (c :: cs) with
        | some pr => stripAux fuel (lastIsWord pr.1 prevWord) pr.2
        | none => c :: stripAux fuel (isWordChar c) cs

/-- `re.sub(r'\b(mr|mrs|ms|dr|prof)\.?\s*', '', s)`. -/
def stripTitles (s : List Char) : List Char := stripAux s.length false s

/-- `KnowledgeGraphQueryEngine._normalize_name`:
`name.lower().strip()` then strip honorifics. -/
def normalize_name (s : List Char) : List Char := stripTitles (pyStrip (pyLower s))

/-! ## The notes extractors of the Peswani engine

`re.search(r'Age (\d+)', notes)` and `re.search(r'Age \d+, ([^,]+)', notes)`:
leftmost match wins; `\d+` and `[^,]+` are greedy, and since a digit run can
only be followed by the literal comma once maximal, no backtracking case
remains. -/

/-- Try `Age (\d+)` at the current position; returns the captured digits. -/
def matchAgeAt (cs : List Char) : Option (List Char) :=
  if cs.take 4 = "Age ".toList then
    let ds := (cs.drop 4).takeWhile Char.isDigit
    if ds.isEmpty then none else some ds
  else none

/-- `re.search(r'Age (\d+)', s)`, leftmost occurrence. -/
def searchAge : List Char → Option (List Char)
  | [] => none
  | c :: cs =>
      match matchAgeAt (c :: cs) with
      | some ds => some ds
      | none => searchAge cs

/-- Try `Age \d+, ([^,]+)` at the current position; returns the capture. -/
def matchProfAt (cs : List Char) : Option (List Char) :=
  if cs.take 4 = "Age ".toList then
    let ds := (cs.drop 4).takeWhile Char.isDigit
    if ds.isEmpty then none
    else
      match (cs.drop 4).dropWhile Char.isDigit with
      | ',' :: ' ' :: rest =>
          let p := rest.takeWhile (fun c => ¬(c = ','))
          if p.isEmpty then none else some p
      | _ => none
  else none

/-- `re.search(r'Age \d+, ([^,]+)', s)`, leftmost occurrence. -/
def searchProf : List Char → Option (List Char)
  | [] => none
  | c :: cs =>
      match matchProfAt (c :: cs) with
      | some p => some p
      | none => searchProf cs

/-- `age_match.group(1) if age_match else "unknown"`. -/
def ageOf (notes : List Char) : List Char := (searchAge notes).getD ("unknown".toList)

/-- `profession_match.group(1) if profession_match else "unknown"`. -/
def profOf (notes : List Char) : List Char := (searchProf notes).getD ("unknown".toList)

/-! ## Data model: the two tables the engine reads -/

/-- A row of the `users` table (an Elder), restricted to the columns the
engine touches.  `id` is the `INTEGER PRIMARY KEY`. -/
structure UserRow where
  id : Nat
  full_name : List Char
  user_type : List Char
  date_of_birth : Option (List Char)
deriving DecidableEq

/-- A row of the `family_members` table, restricted to the columns the engine
touches.  All of `phone_number`, `email`, `address` and `notes` are nullable
in the schema. -/
structure FamilyMemberRow where
  id : Nat
  user_id : Nat
  name : List Char
  relationship_type : List Char
  phone_number : Option (List Char)
  email : Option (List Char)
  address : Option (List Char)
  notes : Option (List Char)
deriving DecidableEq

/-- The database snapshot, rows in table order. -/
structure DB where
  users : List UserRow
  family_members : List FamilyMemberRow
deriving DecidableEq

/-- The dictionary `_find_person_by_name` returns: either an Elder reference
(`user_id` equal to the id) or a Family-Member reference joined to its owning
Elder's name. -/
inductive Person where
  | elder (id : Nat) (name : List Char)
  | family_member (id : Nat) (name : List Char) (relationship : List Char)
      (user_id : Nat) (elder_name : List Char)
deriving DecidableEq

/-- The `user_id` key of the resolved dictionary. -/
def Person.user_id : Person → Nat
  | .elder i _ => i
  | .family_member _ _ _ u _ => u

/-- The `name` key of the resolved dictionary. -/
def Person.pname : Person → List Char
  | .elder _ n => n
  | .family_member _ n _ _ _ => n

/-- The `id` key of the resolved dictionary. -/
def Person.pid : Person → Nat
  | .elder i _ => i
  | .family_member i _ _ _ _ => i

/-- `person["type"] == "elder"`. -/
def Person.isElder : Person → Bool
  | .elder _ _ => true
  | _ => false

/-- `person["type"] == "family_member"`. -/
def Person.isFamilyMember : Person → Bool
  | .family_member _ _ _ _ _ => true
  | _ => false

/-- The `relationship` key (only present on Family-Member references). -/
def Person.famRel : Person → List Char
  | .family_member _ _ r _ _ => r
  | _ => []

/-- Tag distinguishing the two candidate pools of the fuzzy scan. -/
inductive PType where
  | elder
  | family
deriving DecidableEq

/-- `JOIN users u ON fm.user_id = u.id`: each family-member row paired with
the first users row carrying its `user_id`; rows without an owner drop out of
the join. -/
def joinRows (db : DB) : List (FamilyMemberRow × UserRow) :=
  db.family_members.filterMap fun fm =>
    (db.users.find? fun u => u.id = fm.user_id).map fun u => (fm, u)

/-- `LOWER(full_name) LIKE '%' || fragment || '%'` on a users row. -/
def elderLike (frag : List Char) (u : UserRow) : Bool :=
  sqlLike (likePat frag) (pyLower u.full_name)

/-- `LOWER(fm.name) LIKE '%' || fragment || '%'` on a family-member row. -/
def famLike (frag : List Char) (fm : FamilyMemberRow) : Bool :=
  sqlLike (likePat frag) (pyLower fm.name)

/-- `all_names`: all users rows then all family-member rows, as
(id, name, pool) triples, in scan order. -/
def all_names (db : DB) : List (Nat × List Char × PType) :=
  (db.users.map fun u => (u.id, u.full_name, PType.elder)) ++
    (db.family_members.map fun f => (f.id, f.name, PType.family))

/-- The similarity of a candidate against the normalized fragment:
`difflib.SequenceMatcher(None, normalized_name, person_name.lower()).ratio()`,
abstracted as the parameter `sim`. -/
def candRatio (sim : List Char → List Char → ℚ) (target : List Char)
    (cand : Nat × List Char × PType) : ℚ :=
  sim target (pyLower cand.2.1)

/-- The best-match loop of the fuzzy block: a candidate replaces the current
best only when its ratio strictly exceeds both the running best and the 0.6
threshold. -/
def bestFuzzyAux (sim : List Char → List Char → ℚ) (target : List Char) :
    List (Nat × List Char × PType) → Option (Nat × List Char × PType) → ℚ →
      Option (Nat × List Char × PType)
  | [], best, _ => best
  | cand :: rest, best, bestRatio =>
      if candRatio sim target cand > bestRatio ∧ candRatio sim target cand > simThreshold then
        bestFuzzyAux sim target rest (some cand) (candRatio sim target cand)
      else
        bestFuzzyAux sim target rest best bestRatio

/-- `best_match` after scanning every candidate (initially `None` with
`best_ratio = 0`). -/
def bestFuzzy (sim : List Char → List Char → ℚ) (target : List Char)
    (cands : List (Nat × List Char × PType)) : Option (Nat × List Char × PType) :=
  bestFuzzyAux sim target cands none 0

/-- The fuzzy-matching block of `_find_person_by_name`: pick the best
candidate, then re-read its row (`fetchone()[...]` on a vanished join row
would raise, which the embedding records as an error value). -/
def fuzzy_step (sim : List Char → List Char → ℚ) (db : DB)
    (normalized : List Char) : Except (List Char) (Option Person) :=
  match bestFuzzy sim normalized (all_names db) with
  | none => .ok none
  | some (pid, _, PType.elder) =>
      match db.users.find? (fun u => u.id = pid) with
      | some u => .ok (some (.elder u.id u.full_name))
      | none => .error ("TypeError: 'NoneType' object is not subscriptable".toList)
  | some (pid, _, PType.family) =>
      match (joinRows db).find? (fun r => r.1.id = pid) with
      | some r => .ok (some (.family_member r.1.id r.1.name r.1.relationship_type
          r.1.user_id r.2.full_name))
      | none => .error ("TypeError: 'NoneType' object is not subscriptable".toList)

/-- `KnowledgeGraphQueryEngine._find_person_by_name`: normalize, then the
Elder `LIKE` lookup, then the Family-Member `LIKE` lookup (joined to the
owning Elder), then fuzzy matching. -/
def find_person_by_name (sim : List Char → List Char → ℚ) (db : DB)
    (name : List Char) : Except (List Char) (Option Person) :=
  let normalized := normalize_name name
  match db.users.find? (elderLike normalized) with
  | some u => .ok (some (.elder u.id u.full_name))
  | none =>
      match (joinRows db).find? (fun r => famLike normalized r.1) with
      | some r => .ok (some (.family_member r.1.id r.1.name r.1.relationship_type
          r.1.user_id r.2.full_name))
      | none => fuzzy_step sim db normalized

/-! ## Structured results -/

/-- The intent tags of `self.query_patterns`, in declared (insertion) order,
plus the fallback `unknown`. -/
inductive Intent where
  | daughter_name
  | son_name
  | birthday
  | profession
  | family_members
  | relationship
  | unknown
deriving DecidableEq

/-- The value stored under the `answer` key. -/
inductive AnswerVal where
  | null
  | str (s : List Char)
  | list (xs : List (List Char))
deriving DecidableEq

/-- A family-member dictionary as built by `_get_family_members`: row columns
plus the `birthday` / `profession` / `age` entries of the decoded notes. -/
structure MemberInfo where
  id : Nat
  name : List Char
  relationship : List Char
  phone : Option (List Char)
  email : Option (List Char)
  birthday : Option (List Char)
  profession : Option (List Char)
  age : Option (List Char)
deriving DecidableEq

/-- The `details` dictionary of the Peswani `_get_person_info` response. -/
structure PersonDetails where
  name : List Char
  relationship : List Char
  age : List Char
  profession : List Char
  address : Option (List Char)
  phone : Option (List Char)
  email : Option (List Char)
deriving DecidableEq

/-- One entry of the `brothers` list of `_get_brothers_info`. -/
structure BrotherInfo where
  name : List Char
  age : List Char
  profession : List Char
  location : Option (List Char)
deriving DecidableEq

/-- The intent-specific `details` payloads the engines attach. -/
inductive Details where
  | member (m : MemberInfo)
  | members (ms : List MemberInfo)
  | person (p : PersonDetails)
  | brothers (bs : List BrotherInfo)
  | family (count : Nat) (members : List (List Char))
deriving DecidableEq

/-- The dictionary a query returns. A `none` field models an absent key;
`answer = some .null` models a present key holding `None`. -/
structure QueryResult where
  success : Bool
  message : List Char
  answer : Option AnswerVal := none
  details : Option Details := none
  suggestions : Option (List (List Char)) := none
  full_date : Option (List Char) := none
  error : Option (List Char) := none
  intent : Option Intent := none
deriving DecidableEq

/-! ## The store accessor `_get_family_members`

`json.loads` is abstracted as a parameter `jparse` decoding a notes string to
a string-valued dictionary (or failing, as `json.loads` does on text that is
not JSON); `None` or empty notes decode to the empty dictionary via the
`if result[5] else {}` guard. -/

/-- Decode one notes column through `jparse`. -/
def decodeNotes (jparse : List Char → Except (List Char) (List (List Char × List Char)))
    (notes : Option (List Char)) : Except (List Char) (List (List Char × List Char)) :=
  match notes with
  | none => .ok []
  | some s => if s.isEmpty then .ok [] else jparse s

/-- `dict.get(key)`. -/
def dictGet (key : List Char) (d : List (List Char × List Char)) : Option (List Char) :=
  (d.find? fun kv => kv.1 = key).map fun kv => kv.2

/-- `KnowledgeGraphQueryEngine._get_family_members`: the rows of one elder,
optionally filtered by `LOWER(relationship_type) = LOWER(?)`, each decoded
into a member dictionary. -/
def get_family_members (jparse : List Char → Except (List Char) (List (List Char × List Char)))
    (db : DB) (user_id : Nat) (relationship : Option (List Char)) :
    Except (List Char) (List MemberInfo) :=
  let rows := db.family_members.filter fun fm =>
    fm.user_id == user_id &&
      (match relationship with
       | some r => pyLower fm.relationship_type == pyLower r
       | none => true)
  rows.mapM fun fm =>
    (decodeNotes jparse fm.notes).map fun notes =>
      { id := fm.id, name := fm.name, relationship := fm.relationship_type,
        phone := fm.phone_number, email := fm.email,
        birthday := dictGet ("birthday".toList) notes,
        profession := dictGet ("profession".toList) notes,
        age := dictGet ("age".toList) notes }

/-! ## Intent handlers of the generic engine -/

/-- The relationship label a child-name intent filters by:
`"daughter" if intent == "daughter_name" else "son"`. -/
def childRel (intent : Intent) : List Char :=
  if intent = .daughter_name then "daughter".toList else "son".toList

/-- The not-found reply shared by the handlers. -/
def notFoundResult (name : List Char) : QueryResult :=
  { success := false,
    message := "I couldn\x27t find anyone named \x27".toList ++ name ++
      "\x27 in the family database.".toList }

/-- `KnowledgeGraphQueryEngine._handle_child_query`. -/
def handle_child_query (sim : List Char → List Char → ℚ)
    (jparse : List Char → Except (List Char) (List (List Char × List Char)))
    (db : DB) (parent_name : List Char) (intent : Intent) :
    Except (List Char) QueryResult :=
  match find_person_by_name sim db parent_name with
  | .error e => .error e
  | .ok none => .ok (notFoundResult parent_name)
  | .ok (some person) =>
      if person.isElder then
        let relationship := childRel intent
        match get_family_members jparse db person.user_id (some relationship) with
        | .error e => .error e
        | .ok children =>
            match children with
            | [] => .ok
                { success := true,
                  message := person.pname ++ " doesn\x27t have any ".toList ++
                    relationship ++ "s in the database.".toList,
                  answer := some .null }
            | [child] => .ok
                { success := true,
                  message := person.pname ++ "\x27s ".toList ++ relationship ++
                    " is ".toList ++ child.name ++ ".".toList,
                  answer := some (.str child.name),
                  details := some (.member child) }
            | children => .ok
                { success := true,
                  message := person.pname ++ " has ".toList ++ natToStr children.length ++
                    " ".toList ++ relationship ++ "s: ".toList ++
                    joinComma (children.map (·.name)) ++ ".".toList,
                  answer := some (.list (children.map (·.name))),
                  details := some (.members children) }
      else
        .ok
          { success := false,
            message := person.pname ++
              " is not listed as a primary family member. I can only find children of elders.".toList }

/-- The three formatted views of a parsed `datetime`:
`strftime('%B %d, %Y')`, `strftime('%B %d')` and `strftime('%Y-%m-%d')`. -/
structure PyDatetime where
  fmtLong : List Char
  fmtMonthDay : List Char
  fmtIso : List Char
deriving DecidableEq

/-- `dob_string.replace('Z', '+00:00')`. -/
def replaceZ (s : List Char) : List Char :=
  s.flatMap fun c => if c = 'Z' then "+00:00".toList else [c]

/-- `KnowledgeGraphQueryEngine._handle_birthday_query`; `fromiso` abstracts
`datetime.fromisoformat`, which may raise on a malformed stored date. -/
def handle_birthday_query (sim : List Char → List Char → ℚ)
    (jparse : List Char → Except (List Char) (List (List Char × List Char)))
    (fromiso : List Char → Except (List Char) PyDatetime)
    (db : DB) (person_name : List Char) : Except (List Char) QueryResult :=
  match find_person_by_name sim db person_name with
  | .error e => .error e
  | .ok none => .ok (notFoundResult person_name)
  | .ok (some person) =>
      let fallb : Except (List Char) QueryResult := .ok
        { success := false,
          message := "I don\x27t have birthday information for ".toList ++
            person.pname ++ ".".toList }
      if person.isElder then
        match db.users.find? (fun u => u.id == person.user_id) with
        | some u =>
            match u.date_of_birth with
            | some dob =>
                if dob.isEmpty then fallb
                else
                match fromiso (replaceZ dob) with
                | .error e => .error e
                | .ok d => .ok
                    { success := true,
                      message := person.pname ++ "\x27s birthday is on ".toList ++
                        d.fmtLong ++ ".".toList,
                      answer := some (.str d.fmtMonthDay),
                      full_date := some d.fmtIso }
            | none => fallb
        | none => fallb
      else
        match get_family_members jparse db person.user_id none with
        | .error e => .error e
        | .ok members =>
            match members.find? (fun m => pyLower m.name == pyLower person.pname) with
            | some m =>
                match m.birthday with
                | some b => .ok
                    { success := true,
                      message := person.pname ++ "\x27s birthday is on ".toList ++
                        b ++ ".".toList,
                      answer := some (.str b) }
                | none => fallb
            | none => fallb

/-- `KnowledgeGraphQueryEngine._handle_profession_query`. -/
def handle_profession_query (sim : List Char → List Char → ℚ)
    (jparse : List Char → Except (List Char) (List (List Char × List Char)))
    (db : DB) (person_name : List Char) : Except (List Char) QueryResult :=
  match find_person_by_name sim db person_name with
  | .error e => .error e
  | .ok none => .ok (notFoundResult person_name)
  | .ok (some person) =>
      let fallb : Except (List Char) QueryResult := .ok
        { success := false,
          message := "I don\x27t have profession information for ".toList ++
            person.pname ++ ".".toList }
      if person.isFamilyMember then
        match get_family_members jparse db person.user_id none with
        | .error e => .error e
        | .ok members =>
            match members.find? (fun m => pyLower m.name == pyLower person.pname) with
            | some m =>
                match m.profession with
                | some p => .ok
                    { success := true,
                      message := person.pname ++ " works as a ".toList ++ p ++ ".".toList,
                      answer := some (.str p) }
                | none => fallb
            | none => fallb
      else fallb

/-- `KnowledgeGraphQueryEngine._handle_family_members_query`. -/
def handle_family_members_query (sim : List Char → List Char → ℚ)
    (jparse : List Char → Except (List Char) (List (List Char × List Char)))
    (db : DB) (person_name : List Char) : Except (List Char) QueryResult :=
  match find_person_by_name sim db person_name with
  | .error e => .error e
  | .ok none => .ok (notFoundResult person_name)
  | .ok (some person) =>
      if ¬person.isElder then
        .ok
          { success := false,
            message := "I can only list family members for elders in the system.".toList }
      else
        match get_family_members jparse db person.user_id none with
        | .error e => .error e
        | .ok members =>
            match members with
            | [] => .ok
                { success := true,
                  message := person.pname ++
                    " doesn\x27t have any family members in the database.".toList,
                  answer := some (.list []) }
            | members =>
                let member_list := members.map fun m =>
                  m.name ++ " (".toList ++ m.relationship ++ ")".toList
                .ok
                  { success := true,
                    message := person.pname ++ "\x27s family members are: ".toList ++
                      joinComma member_list ++ ".".toList,
                    answer := some (.list member_list),
                    details := some (.members members) }

/-- The failure reply of the relationship handler. -/
def couldntDetermine (person1 person2 : List Char) : QueryResult :=
  { success := false,
    message := "I couldn\x27t determine the relationship between ".toList ++
      person1 ++ " and ".toList ++ person2 ++ ".".toList }

/-- `KnowledgeGraphQueryEngine._handle_relationship_query`. -/
def handle_relationship_query (sim : List Char → List Char → ℚ) (db : DB)
    (person1 person2 : List Char) : Except (List Char) QueryResult :=
  match find_person_by_name sim db person1 with
  | .error e => .error e
  | .ok none => .ok
      { success := false,
        message := "I couldn\x27t find anyone named \x27".toList ++ person1 ++
          "\x27.".toList }
  | .ok (some p1) =>
      match find_person_by_name sim db person2 with
      | .error e => .error e
      | .ok none => .ok
          { success := false,
            message := "I couldn\x27t find anyone named \x27".toList ++ person2 ++
              "\x27.".toList }
      | .ok (some p2) =>
          if p1.user_id = p2.user_id then
            if p1.isElder ∧ p2.isFamilyMember then
              .ok
                { success := true,
                  message := p2.pname ++ " is ".toList ++ p1.pname ++ "\x27s ".toList ++
                    p2.famRel ++ ".".toList,
                  answer := some (.str p2.famRel) }
            else if p2.isElder ∧ p1.isFamilyMember then
              .ok
                { success := true,
                  message := p1.pname ++ " is ".toList ++ p2.pname ++ "\x27s ".toList ++
                    p1.famRel ++ ".".toList,
                  answer := some (.str p1.famRel) }
            else .ok (couldntDetermine person1 person2)
          else .ok (couldntDetermine person1 person2)

/-! ## The intent classifier `_parse_query`

`re.search` over the declared pattern table is abstracted as a matcher
parameter `M` taking the pattern text and the (lowercased, stripped) question
and returning the captured groups on a match.  The table itself is the
`self.query_patterns` dictionary, whose iteration order is its insertion
order. -/

/-- `self.query_patterns`, categories and patterns in declared order. -/
def query_patterns : List (Intent × List (List Char)) :=
  [(.daughter_name,
      ["what is (?:the )?name of (.+?)(?:\x27s|s) daughter".toList,
       "who is (.+?)(?:\x27s|s) daughter".toList,
       "(.+?)(?:\x27s|s) daughter(?:\x27s)? name".toList,
       "name (?:of )?(.+?)(?:\x27s|s) daughter".toList]),
   (.son_name,
      ["what is (?:the )?name of (.+?)(?:\x27s|s) son".toList,
       "who is (.+?)(?:\x27s|s) son".toList,
       "(.+?)(?:\x27s|s) son(?:\x27s)? name".toList,
       "name (?:of )?(.+?)(?:\x27s|s) son".toList]),
   (.birthday,
      ["when is (.+?)(?:\x27s|s) birthday".toList,
       "(.+?)(?:\x27s|s) birthday".toList,
       "birthday of (.+)".toList,
       "when was (.+) born".toList]),
   (.profession,
      ["what does (.+?) do for work".toList,
       "what is (.+?)(?:\x27s|s) job".toList,
       "what is (.+?)(?:\x27s|s) profession".toList,
       "(.+?)(?:\x27s|s) profession".toList,
       "where does (.+?) work".toList]),
   (.family_members,
      ["who (?:are|is) (.+?)(?:\x27s|s) (?:children|kids|family)".toList,
       "(?:list|tell me) (.+?)(?:\x27s|s) family members".toList,
       "(.+?)(?:\x27s|s) (?:sons|daughters|children)".toList]),
   (.relationship,
      ["how is (.+) related to (.+)".toList,
       "what is the relationship between (.+) and (.+)".toList,
       "who is (.+) to (.+)".toList])]

/-- The parsed form of a question. -/
structure ParseResult where
  intent : Intent
  entities : List (List Char)
  raw_query : List Char
deriving DecidableEq

/-- The inner loop: first pattern of one category that matches. -/
def findPat (M : List Char → List Char → Option (List (List Char))) :
    List (List Char) → List Char → Option (List (List Char))
  | [], _ => none
  | p :: ps, q =>
      match M p q with
      | some gs => some gs
      | none => findPat M ps q

/-- The outer loop: first category owning a matching pattern. -/
def findIntent (M : List Char → List Char → Option (List (List Char))) :
    List (Intent × List (List Char)) → List Char →
      Option (Intent × List (List Char))
  | [], _ => none
  | (i, ps) :: rest, q =>
      match findPat M ps q with
      | some gs => some (i, gs)
      | none => findIntent M rest q

/-- `KnowledgeGraphQueryEngine._parse_query`: lower-case and strip the
question, then scan the pattern table in declared order. -/
def parse_query (M : List Char → List Char → Option (List (List Char)))
    (question : List Char) : ParseResult :=
  let q := pyStrip (pyLower question)
  match findIntent M query_patterns q with
  | some r => { intent := r.1, entities := r.2, raw_query := q }
  | none => { intent := .unknown, entities := [], raw_query := q }

/-- The pattern table flattened to (intent, pattern) pairs, category-major,
preserving the declared order. -/
def flatPatterns (tbl : List (Intent × List (List Char))) :
    List (Intent × List Char) :=
  tbl.flatMap fun ip => ip.2.map fun p => (ip.1, p)

/-- Modelled from the spec: the classifier "returns the first pattern that
matches" of the table read as one flat, declaration-ordered list. -/
def parse_query_firstMatchSpec (M : List Char → List Char → Option (List (List Char)))
    (question : List Char) : ParseResult :=
  let q := pyStrip (pyLower question)
  match (flatPatterns query_patterns).findSome?
      (fun ip => (M ip.2 q).map fun gs => (ip.1, gs)) with
  | some r => { intent := r.1, entities := r.2, raw_query := q }
  | none => { intent := .unknown, entities := [], raw_query := q }

/-! ## The query dispatcher -/

/-- `entities[0]`; an empty capture tuple raises `IndexError`. -/
def entity0 : List (List Char) → Except (List Char) (List Char)
  | [] => .error ("IndexError: tuple index out of range".toList)
  | e :: _ => .ok e

/-- `entities[0], entities[1]`; missing captures raise `IndexError`. -/
def entity01 : List (List Char) → Except (List Char) (List Char × List Char)
  | e0 :: e1 :: _ => .ok (e0, e1)
  | _ => .error ("IndexError: tuple index out of range".toList)

/-- The body of the `try` block of `KnowledgeGraphQueryEngine.query`:
dispatch the parsed intent to its handler. -/
def queryBody (sim : List Char → List Char → ℚ)
    (jparse : List Char → Except (List Char) (List (List Char × List Char)))
    (fromiso : List Char → Except (List Char) PyDatetime)
    (db : DB) (parsed : ParseResult) : Except (List Char) QueryResult :=
  match parsed.intent with
  | .daughter_name =>
      (entity0 parsed.entities).bind fun e =>
        handle_child_query sim jparse db e .daughter_name
  | .son_name =>
      (entity0 parsed.entities).bind fun e =>
        handle_child_query sim jparse db e .son_name
  | .birthday =>
      (entity0 parsed.entities).bind fun e =>
        handle_birthday_query sim jparse fromiso db e
  | .profession =>
      (entity0 parsed.entities).bind fun e =>
        handle_profession_query sim jparse db e
  | .family_members =>
      (entity0 parsed.entities).bind fun e =>
        handle_family_members_query sim jparse db e
  | .relationship =>
      (entity01 parsed.entities).bind fun e =>
        handle_relationship_query sim db e.1 e.2
  | .unknown => .ok
      { success := false,
        message := "I understand you\x27re asking about \x27unknown\x27 but I need more information.".toList,
        intent := some .unknown }

/-- The canned reply and example questions of the unknown-intent outcome. -/
def unknownResult : QueryResult :=
  { success := false,
    message := "I couldn\x27t understand your question. Try asking about family members, birthdays, or professions.".toList,
    suggestions := some
      ["What is the name of Sarita\x27s daughter?".toList,
       "When is Meeta\x27s birthday?".toList,
       "What does Rajesh do for work?".toList] }

/-- `KnowledgeGraphQueryEngine.query`: parse, answer the unknown intent
directly, and run every handler inside the `try` block, converting any raised
failure into a `success=false` reply. -/
def query (M : List Char → List Char → Option (List (List Char)))
    (sim : List Char → List Char → ℚ)
    (jparse : List Char → Except (List Char) (List (List Char × List Char)))
    (fromiso : List Char → Except (List Char) PyDatetime)
    (db : DB) (question : List Char) : QueryResult :=
  let parsed := parse_query M question
  if parsed.intent = .unknown then unknownResult
  else
    match queryBody sim jparse fromiso db parsed with
    | .ok r => r
    | .error e =>
        { success := false,
          message := "Sorry, I encountered an error processing your question: ".toList ++ e,
          error := some e }

/-! ## The hand-coded Peswani engine (`peswani_knowledge_graph.py`)

Its constructor caches the family rows of one user as a dictionary keyed by
lower-cased name (`self.family_data`); the cache is modelled as an
association list in row order.  Its `query` method has no `try` block: the
embedding therefore returns `Except`, and an `.error` value is a Python
exception propagating out of `query` unhandled. -/

/-- One cached row of `family_data`. -/
structure PMember where
  name : List Char
  relationship : List Char
  phone : Option (List Char)
  email : Option (List Char)
  address : Option (List Char)
  notes : Option (List Char)
deriving DecidableEq

/-- `self.family_data`: lower-cased name keys, in row order. -/
def PCache := List (List Char × PMember)

/-- The category keys of `self.patterns`, in declared order. -/
inductive PCategory where
  | father
  | mother
  | brother
  | arjun
  | suryakant
  | sister_in_law
  | niece
  | family
  | location
deriving DecidableEq

/-- `self.patterns` of the Peswani engine, categories and patterns in
declared order. -/
def peswani_patterns : List (PCategory × List (List Char)) :=
  [(.father,
      ["who is (?:my )?father".toList, "tell me about (?:my )?father".toList,
       "who is rajesh".toList, "tell me about rajesh".toList,
       "what does (?:my )?father do".toList, "father\x27s job".toList, "dad".toList]),
   (.mother,
      ["who is (?:my )?mother".toList, "tell me about (?:my )?mother".toList,
       "who is sunita".toList, "tell me about sunita".toList,
       "what does (?:my )?mother do".toList, "mother\x27s job".toList, "mom".toList]),
   (.brother,
      ["who is (?:my )?brother".toList, "tell me about (?:my )?brother".toList,
       "who is arjun".toList, "tell me about arjun".toList,
       "what does arjun do".toList, "arjun\x27s job".toList,
       "who is suryakant".toList, "tell me about suryakant".toList,
       "what does suryakant do".toList, "suryakant\x27s job".toList]),
   (.arjun,
      ["who is arjun".toList, "tell me about arjun".toList,
       "what does arjun do".toList, "arjun\x27s job".toList,
       "arjun peswani".toList]),
   (.suryakant,
      ["who is suryakant".toList, "tell me about suryakant".toList,
       "what does suryakant do".toList, "suryakant\x27s job".toList,
       "suryakant kasare".toList]),
   (.sister_in_law,
      ["who is kavya".toList, "tell me about kavya".toList,
       "what does kavya do".toList, "kavya\x27s job".toList,
       "who is (?:my )?sister.?in.?law".toList]),
   (.niece,
      ["who is aadhya".toList, "tell me about aadhya".toList,
       "who is (?:my )?niece".toList, "tell me about (?:my )?niece".toList]),
   (.family,
      ["tell me about (?:my )?family".toList, "who are (?:my )?family members".toList,
       "how many family members".toList, "list (?:my )?family".toList]),
   (.location,
      ["who lives in pune".toList, "who lives in mumbai".toList,
       "who lives in nandeo".toList, "where does (.+?) live".toList])]

/-- The `TypeError` raised by `re.search(pattern, None)` when a notes column
is NULL. -/
def reSearchNoneError : List Char := "TypeError: expected string or bytes-like object".toList

/-- `PeswaniKnowledgeGraph._get_person_info`: cache lookup by lower-cased
name, then the best-effort `Age (\d+)` / `Age \d+, ([^,]+)` extraction from
the notes blob; a NULL notes blob reaches `re.search` as `None` and raises. -/
def get_person_info (cache : PCache) (name : List Char) :
    Except (List Char) QueryResult :=
  let nm := pyLower name
  match cache.find? (fun kv => kv.1 == nm) with
  | none => .ok
      { success := false,
        message := "I don\x27t have information about ".toList ++ nm ++
          " in the Peswani family.".toList,
        answer := some .null }
  | some kv =>
      let person := kv.2
      match person.notes with
      | none => .error reSearchNoneError
      | some notes => .ok
          { success := true,
            message := person.name ++ " is your ".toList ++ person.relationship ++
              ". They are ".toList ++ ageOf notes ++
              " years old and work as a ".toList ++ profOf notes ++
              ". They live in ".toList ++ showOpt person.address ++ ".".toList,
            answer := some (.str person.name),
            details := some (.person
              { name := person.name, relationship := person.relationship,
                age := ageOf notes, profession := profOf notes,
                address := person.address, phone := person.phone,
                email := person.email }) }

/-- The per-brother extraction step of `_get_brothers_info`. -/
def brotherInfo (cache : PCache) (key : List Char) :
    Except (List Char) (List BrotherInfo) :=
  match cache.find? (fun kv => kv.1 == key) with
  | none => .ok []
  | some kv =>
      match kv.2.notes with
      | none => .error reSearchNoneError
      | some notes => .ok
          [{ name := kv.2.name, age := ageOf notes, profession := profOf notes,
             location := kv.2.address }]

/-- The message piece `"{name} (age {age}, {profession}) in {location}"`. -/
def brotherPhrase (b : BrotherInfo) : List Char :=
  b.name ++ " (age ".toList ++ b.age ++ ", ".toList ++ b.profession ++
    ") in ".toList ++ showOpt b.location

/-- `PeswaniKnowledgeGraph._get_brothers_info`. -/
def get_brothers_info (cache : PCache) : Except (List Char) QueryResult :=
  match brotherInfo cache ("arjun peswani".toList) with
  | .error e => .error e
  | .ok b1 =>
      match brotherInfo cache ("suryakant kasare".toList) with
      | .error e => .error e
      | .ok b2 =>
          let brothers := b1 ++ b2
          let response :=
            match brothers with
            | [x, y] => "You have two brothers: ".toList ++ brotherPhrase x ++
                ", and ".toList ++ brotherPhrase y ++ ".".toList
            | [x] => "Your brother is ".toList ++ brotherPhrase x ++ ".".toList
            | _ => "No brother information found.".toList
          .ok
            { success := true,
              message := response,
              answer := some (.str (natToStr brothers.length ++ " brothers".toList)),
              details := some (.brothers brothers) }

/-- `PeswaniKnowledgeGraph._get_all_family_info`: every cached member's age
is extracted from its notes (raising on a NULL notes blob). -/
def get_all_family_info (cache : PCache) : Except (List Char) QueryResult :=
  match cache.mapM (fun kv =>
      match kv.2.notes with
      | none => (.error reSearchNoneError : Except (List Char) (List Char))
      | some notes => .ok (kv.2.name ++ " (".toList ++ kv.2.relationship ++
          ", age ".toList ++ ageOf notes ++ ")".toList)) with
  | .error e => .error e
  | .ok family_list => .ok
      { success := true,
        message := "Your family includes: ".toList ++ joinComma family_list ++
          ". They are spread across Mumbai and Pune.".toList,
        answer := some (.str (natToStr family_list.length ++ " family members".toList)),
        details := some (.family family_list.length family_list) }

/-- The city filter of `_get_location_info`: `'City' in data['address']`
raises `TypeError` on a NULL address. -/
def filterCity (city : List Char) : List (List Char × PMember) →
    Except (List Char) (List (List Char))
  | [] => .ok []
  | kv :: rest =>
      match kv.2.address with
      | none => .error ("TypeError: argument of type \x27NoneType\x27 is not iterable".toList)
      | some a =>
          (filterCity city rest).map fun tail =>
            if containsSub city a then kv.2.name :: tail else tail

/-- `PeswaniKnowledgeGraph._get_location_info`. -/
def get_location_info (cache : PCache) (question : List Char) :
    Except (List Char) QueryResult :=
  let reply : List Char → Except (List Char) QueryResult := fun r => .ok
    { success := true, message := r, answer := some (.str r) }
  if containsSub ("pune".toList) question then
    (filterCity ("Pune".toList) cache).bind fun ms =>
      reply ("In Pune, you have: ".toList ++ joinComma ms)
  else if containsSub ("mumbai".toList) question then
    (filterCity ("Mumbai".toList) cache).bind fun ms =>
      reply ("In Mumbai, you have: ".toList ++ joinComma ms)
  else if containsSub ("nandeo".toList) question then
    (filterCity ("Nandeo".toList) cache).bind fun ms =>
      reply ("In Nandeo, you have: ".toList ++ joinComma ms)
  else
    reply ("Your family is spread across Mumbai (parents), Pune (Arjun\x27s family), and Nandeo (Suryakant).".toList)

/-- `PeswaniKnowledgeGraph._handle_query`: category dispatch. -/
def handle_query_p (cache : PCache) (category : PCategory) (question : List Char) :
    Except (List Char) QueryResult :=
  match category with
  | .father => get_person_info cache ("rajesh peswani".toList)
  | .mother => get_person_info cache ("sunita peswani".toList)
  | .brother => get_brothers_info cache
  | .arjun => get_person_info cache ("arjun peswani".toList)
  | .suryakant => get_person_info cache ("suryakant kasare".toList)
  | .sister_in_law => get_person_info cache ("kavya peswani".toList)
  | .niece => get_person_info cache ("aadhya peswani".toList)
  | .family => get_all_family_info cache
  | .location => get_location_info cache question

/-- The category loop of `PeswaniKnowledgeGraph.query`: first category owning
a pattern that `re.search` (abstracted as `Mp`) finds in the question. -/
def findCategory (Mp : List Char → List Char → Bool) :
    List (PCategory × List (List Char)) → List Char → Option PCategory
  | [], _ => none
  | (cat, ps) :: rest, q =>
      if ps.any (fun p => Mp p q) then some cat else findCategory Mp rest q

/-- The canned no-match reply of the Peswani engine. -/
def peswaniUnknown : QueryResult :=
  { success := false,
    message := "I couldn\x27t understand your question about the Peswani family. Try asking about family members like Rajesh, Sunita, Arjun, Kavya, or Aadhya.".toList,
    answer := some .null,
    suggestions := some
      ["Who is my father?".toList, "Tell me about Arjun".toList,
       "What does Kavya do?".toList, "Who lives in Pune?".toList,
       "Tell me about my family".toList] }

/-- `PeswaniKnowledgeGraph.query`: lower-case and strip the question, scan
the pattern table, fall back to the hard-coded name probes and then to a
cache-key substring scan.  There is no exception handler anywhere on this
path. -/
def peswani_query (Mp : List Char → List Char → Bool) (cache : PCache)
    (question : List Char) : Except (List Char) QueryResult :=
  let q := pyStrip (pyLower question)
  match findCategory Mp peswani_patterns q with
  | some cat => handle_query_p cache cat q
  | none =>
      if containsSub ("suryakant".toList) (pyLower q) then
        get_person_info cache ("suryakant kasare".toList)
      else if containsSub ("arjun".toList) (pyLower q) then
        get_person_info cache ("arjun peswani".toList)
      else
        match cache.find? (fun kv => containsSub kv.1 q) with
        | some kv => get_person_info cache kv.1
        | none => .ok peswaniUnknown

/-! ## Concrete collaborator instances and database snapshots

These closed values instantiate the abstract collaborators (`re` matcher,
`difflib` ratio, `json.loads`, `datetime.fromisoformat`) and the store for
the concrete evaluations below. -/

/-- A matcher that matches exactly the pattern equal to the question text,
capturing the whole text. -/
def exactMatcherW : List Char → List Char → Option (List (List Char)) :=
  fun p q => if p == q then some [q] else none

/-- A matcher whose every pattern matches with an empty capture tuple. -/
def emptyCaptureMatcherW : List Char → List Char → Option (List (List Char)) :=
  fun _ _ => some []

/-- A similarity function that is zero everywhere. -/
def simZeroW : List Char → List Char → ℚ := fun _ _ => 0

/-- A similarity of 0.7 between one specific fragment and one specific name. -/
def simSaritaW : List Char → List Char → ℚ := fun a b =>
  if a == "saritha x".toList && b == "sarita sharma".toList then mkRat 7 10 else 0

/-- A similarity of 0.8 against the lower-cased name "ravi", used to build an
exact tie between two differently-identified candidates. -/
def simRaviW : List Char → List Char → ℚ := fun _ b =>
  if b == "ravi".toList then mkRat 4 5 else 0

/-- A notes decoder for notes-free rows. -/
def jparseEmptyW : List Char → Except (List Char) (List (List Char × List Char)) :=
  fun _ => .ok []

/-- A date parser that always fails (never reached in the evaluations below). -/
def fromisoFailW : List Char → Except (List Char) PyDatetime :=
  fun _ => .error ("ValueError: Invalid isoformat string".toList)

/-- Elder Sarita Sharma with daughters Meeta and Gita (the second stored with
a capitalised relationship label). -/
def dbSharmaW : DB :=
  ⟨[⟨1, "Sarita Sharma".toList, "elder".toList, none⟩],
   [⟨1, 1, "Meeta Sharma".toList, "daughter".toList, none, none, none, none⟩,
    ⟨2, 1, "Gita Sharma".toList, "Daughter".toList, none, none, none, none⟩]⟩

/-- A single elder named "za" (a name that the fragment "z_" LIKE-matches but
does not contain as a substring). -/
def dbZaW : DB := ⟨[⟨1, "za".toList, "elder".toList, none⟩], []⟩

/-- Elder id 7 and family member id 2, both displayed as "Ravi". -/
def dbRaviW : DB :=
  ⟨[⟨7, "Ravi".toList, "elder".toList, none⟩],
   [⟨2, 7, "Ravi".toList, "son".toList, none, none, none, none⟩]⟩

/-- A Peswani cache whose only row has a NULL notes column. -/
def cacheNullNotesW : PCache :=
  [("rajesh peswani".toList,
    ⟨"Rajesh Peswani".toList, "father".toList, none, none, none, none⟩)]

/-- A Peswani cache whose only row has a notes string that matches neither
extraction pattern. -/
def cachePlainNotesW : PCache :=
  [("rajesh peswani".toList,
    ⟨"Rajesh Peswani".toList, "father".toList, none, none,
     some ("Mumbai".toList), some ("hello".toList)⟩)]

/-- A Peswani matcher recognising only the first father pattern. -/
def fatherMatcherW : List Char → List Char → Bool :=
  fun p _ => p == "who is (?:my )?father".toList

/-! ## Character-level lemmas -/

theorem toNat_ofNat_of_lt {n : Nat} (h : n < 55296) : (Char.ofNat n).toNat = n := by
  rw [Char.ofNat, dif_pos (Or.inl h)]
  rfl

theorem toNat_pyLowerChar (c : Char) :
    (pyLowerChar c).toNat =
      if 65 ≤ c.toNat ∧ c.toNat ≤ 90 then c.toNat + 32 else c.toNat := by
  unfold pyLowerChar
  split
  · next h => exact toNat_ofNat_of_lt (by omega)
  · rfl

theorem pyLowerChar_of_not {c : Char} (h : ¬(65 ≤ c.toNat ∧ c.toNat ≤ 90)) :
    pyLowerChar c = c := if_neg h

theorem pyLowerChar_idem (c : Char) : pyLowerChar (pyLowerChar c) = pyLowerChar c := by
  by_cases h : 65 ≤ c.toNat ∧ c.toNat ≤ 90
  · apply pyLowerChar_of_not
    have h1 := toNat_pyLowerChar c
    rw [if_pos h] at h1
    omega
  · rw [pyLowerChar_of_not h]
    exact pyLowerChar_of_not h

theorem isPySpace_pyLowerChar (c : Char) : isPySpace (pyLowerChar c) = isPySpace c := by
  by_cases h : 65 ≤ c.toNat ∧ c.toNat ≤ 90
  · have h1 := toNat_pyLowerChar c
    rw [if_pos h] at h1
    unfold isPySpace
    rw [h1]
    simp only [decide_eq_decide]
    omega
  · rw [pyLowerChar_of_not h]

/-! ## Lemmas on the lower-casing and stripping pipeline -/

theorem pyLower_pyLower (s : List Char) : pyLower (pyLower s) = pyLower s := by
  unfold pyLower
  rw [List.map_map]
  have h : pyLowerChar ∘ pyLowerChar = pyLowerChar := funext pyLowerChar_idem
  rw [h]

theorem isPySpace_comp_pyLowerChar : (isPySpace ∘ pyLowerChar) = isPySpace :=
  funext isPySpace_pyLowerChar

theorem pyStrip_pyLower (s : List Char) : pyStrip (pyLower s) = pyLower (pyStrip s) := by
  unfold pyStrip pyLower
  rw [List.dropWhile_map, isPySpace_comp_pyLowerChar]
  rw [List.rdropWhile, List.rdropWhile, ← List.map_reverse, List.dropWhile_map,
    isPySpace_comp_pyLowerChar, ← List.map_reverse]

theorem dropWhile_rdropWhile_self {p : Char → Bool} {m : List Char}
    (hm : m.dropWhile p = m) : (m.rdropWhile p).dropWhile p = m.rdropWhile p := by
  obtain ⟨t, ht⟩ := (List.rdropWhile_prefix p m)
  cases hx : m.rdropWhile p with
  | nil => rfl
  | cons a x =>
      rw [hx] at ht
      have hpa : p a = false := by
        by_contra hpa
        have hpa' : p a = true := by
          cases hpab : p a
          · exact absurd hpab hpa
          · rfl
        have hm' : m = a :: (x ++ t) := by rw [← ht]; simp
        have : m.dropWhile p = (x ++ t).dropWhile p := by
          rw [hm', List.dropWhile_cons, if_pos hpa']
        have hlen := (List.dropWhile_sublist (l := x ++ t) p).length_le
        rw [hm] at this
        have : m.length ≤ (x ++ t).length := this ▸ hlen
        rw [hm'] at this
        simp at this
      rw [List.dropWhile_cons, if_neg (by simp [hpa])]

theorem pyStrip_idem (s : List Char) : pyStrip (pyStrip s) = pyStrip s := by
  unfold pyStrip
  have hm : (s.dropWhile isPySpace).dropWhile isPySpace = s.dropWhile isPySpace :=
    List.dropWhile_idempotent _ _
  rw [dropWhile_rdropWhile_self hm, List.rdropWhile_idempotent]

/-! ## Lemmas on the classifier loops -/

theorem findPat_eq_findSome (M : List Char → List Char → Option (List (List Char)))
    (ps : List (List Char)) (q : List Char) :
    findPat M ps q = ps.findSome? (fun p => M p q) := by
  induction ps with
  | nil => rfl
  | cons p ps ih =>
      rw [findPat, List.findSome?_cons]
      cases M p q <;> simp [ih]

theorem findSome_option_map {α β γ : Type} (f : α → Option β) (g : β → γ)
    (l : List α) : l.findSome? (fun a => (f a).map g) = (l.findSome? f).map g := by
  induction l with
  | nil => rfl
  | cons a l ih =>
      rw [List.findSome?_cons, List.findSome?_cons]
      cases f a <;> simp [ih]

theorem findIntent_eq_flat (M : List Char → List Char → Option (List (List Char)))
    (tbl : List (Intent × List (List Char))) (q : List Char) :
    findIntent M tbl q =
      (flatPatterns tbl).findSome? (fun ip => (M ip.2 q).map fun gs => (ip.1, gs)) := by
  induction tbl with
  | nil => rfl
  | cons hd rest ih =>
      obtain ⟨i, ps⟩ := hd
      rw [findIntent, flatPatterns, List.flatMap_cons, List.findSome?_append]
      have hmap : (ps.map fun p => (i, p)).findSome?
          (fun ip => (M ip.2 q).map fun gs => (ip.1, gs)) =
            (ps.findSome? (fun p => M p q)).map fun gs => (i, gs) := by
        rw [List.findSome?_map]
        exact findSome_option_map (fun p => M p q) (fun gs => (i, gs)) ps
      rw [hmap, ← findPat_eq_findSome]
      cases findPat M ps q with
      | some gs => simp
      | none => simp [ih, flatPatterns]

theorem findIntent_append_none (M : List Char → List Char → Option (List (List Char)))
    (pre : List (Intent × List (List Char))) (i : Intent) (ps : List (List Char))
    (post : List (Intent × List (List Char))) (q : List Char)
    (h : ∀ jp ∈ pre, findPat M jp.2 q = none) :
    findIntent M (pre ++ (i, ps) :: post) q =
      match findPat M ps q with
      | some gs => some (i, gs)
      | none => findIntent M post q := by
  induction pre with
  | nil => rfl
  | cons hd rest ih =>
      rw [List.cons_append, findIntent, h hd (by simp)]
      exact ih fun jp hjp => h jp (by simp [hjp])

theorem findPat_append_some (M : List Char → List Char → Option (List (List Char)))
    (ps1 : List (List Char)) (p : List Char) (ps2 : List (List Char)) (q : List Char)
    (gs : List (List Char)) (h1 : ∀ p' ∈ ps1, M p' q = none) (h2 : M p q = some gs) :
    findPat M (ps1 ++ p :: ps2) q = some gs := by
  induction ps1 with
  | nil => rw [List.nil_append, findPat, h2]
  | cons hd rest ih =>
      rw [List.cons_append, findPat, h1 hd (by simp)]
      exact ih fun p' hp' => h1 p' (by simp [hp'])

/-! ## Lemmas on the fuzzy best-match loop -/

theorem bestFuzzyAux_decomp (sim : List Char → List Char → ℚ) (t : List Char) :
    ∀ (cands : List (Nat × List Char × PType)) (best : Option (Nat × List Char × PType))
      (br : ℚ) (c : Nat × List Char × PType),
      bestFuzzyAux sim t cands best br = some c →
      (best = some c ∧ ∀ d ∈ cands,
          ¬(candRatio sim t d > br ∧ candRatio sim t d > simThreshold)) ∨
      (∃ l1 l2, cands = l1 ++ c :: l2 ∧ candRatio sim t c > br ∧
          candRatio sim t c > simThreshold ∧
          (∀ d ∈ l1, candRatio sim t d < candRatio sim t c) ∧
          (∀ d ∈ l2, candRatio sim t d ≤ candRatio sim t c)) := by
  intro cands
  induction cands with
  | nil =>
      intro best br c h
      left
      exact ⟨h, by intro d hd; cases hd⟩
  | cons x rest ih =>
      intro best br c h
      rw [bestFuzzyAux] at h
      by_cases hc : candRatio sim t x > br ∧ candRatio sim t x > simThreshold
      · rw [if_pos hc] at h
        rcases ih (some x) (candRatio sim t x) c h with ⟨hbx, hall⟩ | hr
        · have hxc : x = c := Option.some.inj hbx
          subst hxc
          right
          refine ⟨[], rest, by simp, hc.1, hc.2, ?_, ?_⟩
          · intro d hd
            cases hd
          · intro d hd
            rcases not_and_or.mp (hall d hd) with h' | h'
            · exact le_of_not_lt h'
            · exact le_trans (le_of_not_lt h') (le_of_lt hc.2)
        · obtain ⟨l1, l2, hsplit, h1, h2, h3, h4⟩ := hr
          right
          refine ⟨x :: l1, l2, by simp [hsplit], lt_trans hc.1 h1, h2, ?_, h4⟩
          intro d hd
          rcases List.mem_cons.mp hd with rfl | hd'
          · exact h1
          · exact h3 d hd'
      · rw [if_neg hc] at h
        rcases ih best br c h with ⟨hbc, hall⟩ | hr
        · left
          refine ⟨hbc, ?_⟩
          intro d hd
          rcases List.mem_cons.mp hd with rfl | hd'
          · exact hc
          · exact hall d hd'
        · obtain ⟨l1, l2, hsplit, h1, h2, h3, h4⟩ := hr
          right
          refine ⟨x :: l1, l2, by simp [hsplit], h1, h2, ?_, h4⟩
          intro d hd
          rcases List.mem_cons.mp hd with rfl | hd'
          · rcases not_and_or.mp hc with h' | h'
            · exact lt_of_le_of_lt (le_of_not_lt h') h1
            · exact lt_of_le_of_lt (le_of_not_lt h') h2
          · exact h3 d hd'

theorem bestFuzzy_decomp (sim : List Char → List Char → ℚ) (t : List Char)
    (cands : List (Nat × List Char × PType)) (c : Nat × List Char × PType)
    (h : bestFuzzy sim t cands = some c) :
    ∃ l1 l2, cands = l1 ++ c :: l2 ∧ candRatio sim t c > simThreshold ∧
      (∀ d ∈ l1, candRatio sim t d < candRatio sim t c) ∧
      (∀ d ∈ l2, candRatio sim t d ≤ candRatio sim t c) := by
  rcases bestFuzzyAux_decomp sim t cands none 0 c h with ⟨hbc, _⟩ | hr
  · cases hbc
  · obtain ⟨l1, l2, hsplit, _, h2, h3, h4⟩ := hr
    exact ⟨l1, l2, hsplit, h2, h3, h4⟩

theorem bestFuzzyAux_skip (sim : List Char → List Char → ℚ) (t : List Char) :
    ∀ (cands : List (Nat × List Char × PType)) (best : Option (Nat × List Char × PType))
      (br : ℚ),
      (∀ d ∈ cands, ¬(candRatio sim t d > br ∧ candRatio sim t d > simThreshold)) →
      bestFuzzyAux sim t cands best br = best := by
  intro cands
  induction cands with
  | nil => intro best br _; rfl
  | cons x rest ih =>
      intro best br h
      rw [bestFuzzyAux, if_neg (h x (by simp))]
      exact ih best br fun d hd => h d (by simp [hd])

theorem bestFuzzy_none_of_le (sim : List Char → List Char → ℚ) (t : List Char)
    (cands : List (Nat × List Char × PType))
    (h : ∀ d ∈ cands, candRatio sim t d ≤ simThreshold) :
    bestFuzzy sim t cands = none := by
  unfold bestFuzzy
  exact bestFuzzyAux_skip sim t cands none 0 fun d hd hcontra =>
    absurd hcontra.2 (not_lt.mpr (h d hd))
/-! ## Lemmas on the `LIKE` matcher: a literal substring occurrence always
matches the pattern quoted between two percent signs -/

theorem likeFuel_zero (p s : List Char) : likeFuel 0 p s = false := rfl

theorem likeFuel_nil (f : Nat) (s : List Char) : likeFuel (f + 1) [] s = s.isEmpty := rfl

theorem likeFuel_cons (f : Nat) (c : Char) (p s : List Char) :
    likeFuel (f + 1) (c :: p) s =
      if c = '%' then
        likeFuel f p s ||
          (match s with
           | [] => false
           | _ :: s2 => likeFuel f (c :: p) s2)
      else if c = '_' then
        (match s with
         | [] => false
         | _ :: s2 => likeFuel f p s2)
      else
        (match s with
         | [] => false
         | d :: s2 => (pyLowerChar c == pyLowerChar d) && likeFuel f p s2) := rfl

theorem likeFuel_mono : ∀ (f2 f1 : Nat) (p s : List Char), f1 ≤ f2 →
    likeFuel f1 p s = true → likeFuel f2 p s = true := by
  intro f2
  induction f2 with
  | zero =>
      intro f1 p s hle h
      have hf : f1 = 0 := Nat.le_zero.mp hle
      subst hf
      exact h
  | succ g2 ih =>
      intro f1 p s hle h
      cases f1 with
      | zero =>
          rw [likeFuel_zero] at h
          exact Bool.noConfusion h
      | succ g1 =>
          have hg : g1 ≤ g2 := Nat.succ_le_succ_iff.mp hle
          cases p with
          | nil => exact h
          | cons c p2 =>
              rw [likeFuel_cons] at h ⊢
              by_cases hc1 : c = '%'
              · rw [if_pos hc1] at h ⊢
                rcases Bool.or_eq_true_iff.mp h with h1 | h1
                · exact Bool.or_eq_true_iff.mpr (Or.inl (ih g1 p2 s hg h1))
                · cases s with
                  | nil => exact Bool.noConfusion h1
                  | cons d s2 =>
                      exact Bool.or_eq_true_iff.mpr (Or.inr (ih g1 (c :: p2) s2 hg h1))
              · rw [if_neg hc1] at h ⊢
                by_cases hc2 : c = '_'
                · rw [if_pos hc2] at h ⊢
                  cases s with
                  | nil => exact Bool.noConfusion h
                  | cons d s2 => exact ih g1 p2 s2 hg h
                · rw [if_neg hc2] at h ⊢
                  cases s with
                  | nil => exact Bool.noConfusion h
                  | cons d s2 =>
                      rcases Bool.and_eq_true_iff.mp h with ⟨hd, h1⟩
                      exact Bool.and_eq_true_iff.mpr ⟨hd, ih g1 p2 s2 hg h1⟩

theorem likeFuel_percent_all : ∀ (s : List Char),
    likeFuel (s.length + 2) ['%'] s = true := by
  intro s
  induction s with
  | nil => decide
  | cons c s1 ih =>
      have h1 : likeFuel ((s1.length + 2) + 1) ['%'] (c :: s1) = true := by
        rw [likeFuel_cons, if_pos rfl]
        exact Bool.or_eq_true_iff.mpr (Or.inr ih)
      have heq : (c :: s1).length + 2 = (s1.length + 2) + 1 := by
        simp only [List.length_cons]
      rw [heq]
      exact h1

theorem likeFuel_percent_left (fuel : Nat) (p s : List Char)
    (h : likeFuel fuel p s = true) : likeFuel (fuel + 1) ('%' :: p) s = true := by
  rw [likeFuel_cons, if_pos rfl]
  exact Bool.or_eq_true_iff.mpr (Or.inl h)

theorem likeFuel_prepend (s1 : List Char) : ∀ (fuel : Nat) (p s : List Char),
    likeFuel fuel ('%' :: p) s = true →
    likeFuel (fuel + s1.length) ('%' :: p) (s1 ++ s) = true := by
  induction s1 with
  | nil =>
      intro fuel p s h
      simpa using h
  | cons c s2 ih =>
      intro fuel p s h
      have h1 := ih fuel p s h
      have h2 : likeFuel ((fuel + s2.length) + 1) ('%' :: p) (c :: (s2 ++ s)) = true := by
        rw [likeFuel_cons, if_pos rfl]
        exact Bool.or_eq_true_iff.mpr (Or.inr h1)
      have heq : fuel + (c :: s2).length = (fuel + s2.length) + 1 := by
        simp only [List.length_cons]
        omega
      rw [heq]
      simpa using h2

theorem likeFuel_lit : ∀ (f : List Char) (fuel : Nat) (rest s : List Char),
    likeFuel fuel rest s = true →
    likeFuel (fuel + 2 * f.length) (f ++ rest) (f ++ s) = true := by
  intro f
  induction f with
  | nil =>
      intro fuel rest s h
      simpa using h
  | cons c f2 ih =>
      intro fuel rest s h
      have hih := ih fuel rest s h
      have hgoal : likeFuel ((fuel + 2 * f2.length) + 2)
          (c :: (f2 ++ rest)) (c :: (f2 ++ s)) = true := by
        by_cases hc1 : c = '%'
        · subst hc1
          rw [show (fuel + 2 * f2.length) + 2 = ((fuel + 2 * f2.length) + 1) + 1 from rfl]
          rw [likeFuel_cons, if_pos rfl]
          exact Bool.or_eq_true_iff.mpr (Or.inr (likeFuel_percent_left _ _ _ hih))
        · by_cases hc2 : c = '_'
          · subst hc2
            rw [show (fuel + 2 * f2.length) + 2 = ((fuel + 2 * f2.length) + 1) + 1 from rfl]
            rw [likeFuel_cons, if_neg (by decide), if_pos rfl]
            exact likeFuel_mono _ _ _ _ (by omega) hih
          · rw [show (fuel + 2 * f2.length) + 2 = ((fuel + 2 * f2.length) + 1) + 1 from rfl]
            rw [likeFuel_cons, if_neg hc1, if_neg hc2]
            exact Bool.and_eq_true_iff.mpr
              ⟨beq_self_eq_true _, likeFuel_mono _ _ _ _ (by omega) hih⟩
      have heq : fuel + 2 * (c :: f2).length = (fuel + 2 * f2.length) + 2 := by
        simp only [List.length_cons]
        omega
      rw [heq]
      simpa using hgoal

theorem containsSub_exists (f : List Char) : ∀ (s : List Char),
    containsSub f s = true → ∃ s1 s2, s = s1 ++ (f ++ s2) := by
  intro s
  induction s with
  | nil =>
      intro h
      rw [containsSub] at h
      have hf : f = [] := List.isEmpty_iff.mp h
      exact ⟨[], [], by simp [hf]⟩
  | cons c t ih =>
      intro h
      rw [containsSub] at h
      rcases Bool.or_eq_true_iff.mp h with h1 | h1
      · have heq : (c :: t).take f.length = f := beq_iff_eq.mp h1
        have hsplit := List.take_append_drop f.length (c :: t)
        rw [heq] at hsplit
        refine ⟨[], (c :: t).drop f.length, ?_⟩
        rw [List.nil_append]
        exact hsplit.symm
      · obtain ⟨s1, s2, hs⟩ := ih h1
        exact ⟨c :: s1, s2, by simp [hs]⟩

theorem sqlLike_of_containsSub (f s : List Char) (h : containsSub f s = true) :
    sqlLike (likePat f) s = true := by
  obtain ⟨s1, s2, hs⟩ := containsSub_exists f s h
  subst hs
  unfold sqlLike likePat
  have h2 : likeFuel (s2.length + 2) ['%'] s2 = true := likeFuel_percent_all s2
  have h5 : likeFuel ((s2.length + 2) + 2 * f.length) (f ++ ['%']) (f ++ s2) = true :=
    likeFuel_lit f _ ['%'] s2 h2
  have h4 : likeFuel ((s2.length + 2) + 2 * f.length + 1)
      ('%' :: (f ++ ['%'])) (f ++ s2) = true := likeFuel_percent_left _ _ _ h5
  have h3 : likeFuel ((s2.length + 2) + 2 * f.length + 1 + s1.length)
      ('%' :: (f ++ ['%'])) (s1 ++ (f ++ s2)) = true := likeFuel_prepend s1 _ _ _ h4
  apply likeFuel_mono _ _ _ _ _ h3
  simp only [List.length_cons, List.length_append]
  omega

/-! ## The claims -/

/-- C1: the intent classifier evaluates the categories of `query_patterns`
in declared order and, within a category, its patterns in declared order,
returning the intent and captures of the first pattern that matches: it
equals the first-match scan of the flattened table, the first-declared
category owning a matching pattern wins, and within a category the
first-declared matching pattern supplies the captures. -/
theorem c1_first_match_classification
    (M : List Char → List Char → Option (List (List Char))) (q : List Char) :
    parse_query M q = parse_query_firstMatchSpec M q ∧
    (∀ (pre : List (Intent × List (List Char))) (i : Intent)
        (ps : List (List Char)) (post : List (Intent × List (List Char)))
        (gs : List (List Char)),
        query_patterns = pre ++ (i, ps) :: post →
        (∀ jp ∈ pre, findPat M jp.2 (pyStrip (pyLower q)) = none) →
        findPat M ps (pyStrip (pyLower q)) = some gs →
        parse_query M q =
          { intent := i, entities := gs, raw_query := pyStrip (pyLower q) }) ∧
    (∀ (ps1 : List (List Char)) (p : List Char) (ps2 : List (List Char))
        (gs : List (List Char)),
        (∀ p2 ∈ ps1, M p2 (pyStrip (pyLower q)) = none) →
        M p (pyStrip (pyLower q)) = some gs →
        findPat M (ps1 ++ p :: ps2) (pyStrip (pyLower q)) = some gs) := by
  refine ⟨?_, ?_, ?_⟩
  · simp only [parse_query, parse_query_firstMatchSpec, findIntent_eq_flat]
  · intro pre i ps post gs htbl hpre hps
    simp only [parse_query]
    rw [htbl, findIntent_append_none M pre i ps post _ hpre, hps]
  · intro ps1 p ps2 gs h1 h2
    exact findPat_append_some M ps1 p ps2 _ gs h1 h2

/-- Witness for C1: with a matcher that matches only the pattern equal to the
question, the first birthday pattern (third category) classifies as the
birthday intent once the daughter and son categories have failed. -/
theorem c1_witness :
    parse_query exactMatcherW ("when is (.+?)(?:\x27s|s) birthday".toList) =
      { intent := Intent.birthday,
        entities := ["when is (.+?)(?:\x27s|s) birthday".toList],
        raw_query := "when is (.+?)(?:\x27s|s) birthday".toList } :=
  (c1_first_match_classification exactMatcherW
      ("when is (.+?)(?:\x27s|s) birthday".toList)).2.1
    (query_patterns.take 2) Intent.birthday
    ["when is (.+?)(?:\x27s|s) birthday".toList,
     "(.+?)(?:\x27s|s) birthday".toList,
     "birthday of (.+)".toList,
     "when was (.+) born".toList]
    (query_patterns.drop 3)
    ["when is (.+?)(?:\x27s|s) birthday".toList]
    (by decide) (by decide) (by decide)

/-- C2: once both exact lookup steps have failed, the fuzzy step only ever
selects a candidate whose similarity to the normalized fragment strictly
exceeds 0.6; when no candidate exceeds the threshold (in particular when
every ratio is at most 0.6), resolution returns the not-found outcome; and
any person the resolver does return comes from a candidate above the
threshold. -/
theorem c2_fuzzy_threshold (sim : List Char → List Char → ℚ) (db : DB)
    (name : List Char)
    (h1 : db.users.find? (elderLike (normalize_name name)) = none)
    (h2 : (joinRows db).find? (fun r => famLike (normalize_name name) r.1) = none) :
    (∀ c, bestFuzzy sim (normalize_name name) (all_names db) = some c →
        candRatio sim (normalize_name name) c > simThreshold) ∧
    (bestFuzzy sim (normalize_name name) (all_names db) = none →
        find_person_by_name sim db name = .ok none) ∧
    ((∀ c ∈ all_names db, candRatio sim (normalize_name name) c ≤ simThreshold) →
        find_person_by_name sim db name = .ok none) ∧
    (∀ p, find_person_by_name sim db name = .ok (some p) →
        ∃ c, bestFuzzy sim (normalize_name name) (all_names db) = some c ∧
          candRatio sim (normalize_name name) c > simThreshold ∧ p.pid = c.1) := by
  have hratio : ∀ c, bestFuzzy sim (normalize_name name) (all_names db) = some c →
      candRatio sim (normalize_name name) c > simThreshold := by
    intro c hc
    obtain ⟨l1, l2, _, hgt, _, _⟩ :=
      bestFuzzy_decomp sim (normalize_name name) (all_names db) c hc
    exact hgt
  have hnone : bestFuzzy sim (normalize_name name) (all_names db) = none →
      find_person_by_name sim db name = .ok none := by
    intro hb
    simp only [find_person_by_name, h1, h2, fuzzy_step, hb]
  refine ⟨hratio, hnone, ?_, ?_⟩
  · intro hle
    exact hnone (bestFuzzy_none_of_le sim (normalize_name name) (all_names db) hle)
  · intro p hp
    cases hb : bestFuzzy sim (normalize_name name) (all_names db) with
    | none =>
        rw [hnone hb] at hp
        exact Option.noConfusion (Except.ok.inj hp)
    | some c =>
        refine ⟨c, rfl, hratio c hb, ?_⟩
        obtain ⟨pid, nm, ty⟩ := c
        have hp2 : fuzzy_step sim db (normalize_name name) = .ok (some p) := by
          rw [← hp]
          simp only [find_person_by_name, h1, h2]
        cases ty with
        | elder =>
            have hstep : fuzzy_step sim db (normalize_name name) =
                (match db.users.find? (fun u => u.id = pid) with
                 | some u => Except.ok (some (Person.elder u.id u.full_name))
                 | none => Except.error
                     ("TypeError: \x27NoneType\x27 object is not subscriptable".toList)) := by
              rw [fuzzy_step, hb]
            rw [hstep] at hp2
            cases hfind : db.users.find? (fun u => u.id = pid) with
            | none =>
                rw [hfind] at hp2
                exact Except.noConfusion hp2
            | some u =>
                rw [hfind] at hp2
                have hpa := List.find?_some hfind
                have hu : u.id = pid := of_decide_eq_true hpa
                have hpe : Person.elder u.id u.full_name = p :=
                  Option.some.inj (Except.ok.inj hp2)
                rw [← hpe]
                exact hu
        | family =>
            have hstep : fuzzy_step sim db (normalize_name name) =
                (match (joinRows db).find? (fun r => r.1.id = pid) with
                 | some r => Except.ok (some (Person.family_member r.1.id r.1.name
                     r.1.relationship_type r.1.user_id r.2.full_name))
                 | none => Except.error
                     ("TypeError: \x27NoneType\x27 object is not subscriptable".toList)) := by
              rw [fuzzy_step, hb]
            rw [hstep] at hp2
            cases hfind : (joinRows db).find? (fun r => r.1.id = pid) with
            | none =>
                rw [hfind] at hp2
                exact Except.noConfusion hp2
            | some r =>
                rw [hfind] at hp2
                have hpr := List.find?_some hfind
                have hr : r.1.id = pid := of_decide_eq_true hpr
                have hpe : Person.family_member r.1.id r.1.name
                    r.1.relationship_type r.1.user_id r.2.full_name = p :=
                  Option.some.inj (Except.ok.inj hp2)
                rw [← hpe]
                exact hr

/-- Witness for C2: with a database whose exact steps fail on the fragment
"saritha x" and a similarity of 0.7 against the lone elder, the selected
candidate clears the 0.6 threshold. -/
theorem c2_witness :
    candRatio simSaritaW (normalize_name ("saritha x".toList))
      (1, "Sarita Sharma".toList, PType.elder) > simThreshold :=
  (c2_fuzzy_threshold simSaritaW
      ⟨[⟨1, "Sarita Sharma".toList, "elder".toList, none⟩], []⟩
      ("saritha x".toList) (by decide) (by decide)).1
    (1, "Sarita Sharma".toList, PType.elder) (by decide)

/-- C3 counterexample: the name normalizer is not idempotent. Stripping the
title from "rao mr." leaves the trailing space the title once followed, and
a second normalization removes it. -/
theorem c3_counterexample :
    normalize_name (normalize_name ("rao mr.".toList)) ≠
      normalize_name ("rao mr.".toList) := by decide

/-- C3 amended: the normalizer is idempotent on every input on which the
honorific-stripping pass removes nothing (in particular on title-free
names); and normalizing "Dr. Rao" yields the same key as normalizing
"rao". It is not idempotent in general (see the counterexample). -/
theorem c3_amended :
    (∀ s : List Char, stripTitles (pyStrip (pyLower s)) = pyStrip (pyLower s) →
        normalize_name (normalize_name s) = normalize_name s) ∧
    normalize_name ("Dr. Rao".toList) = normalize_name ("rao".toList) := by
  constructor
  · intro s h
    unfold normalize_name
    rw [h]
    have hl : pyLower (pyStrip (pyLower s)) = pyStrip (pyLower s) := by
      rw [← pyStrip_pyLower, pyLower_pyLower]
    rw [hl, pyStrip_idem, h]
  · decide

/-- Witness for C3: a title-free name is normalized idempotently. -/
theorem c3_witness :
    normalize_name (normalize_name ("sarita".toList)) =
      normalize_name ("sarita".toList) :=
  c3_amended.1 ("sarita".toList) (by decide)

/-- C4 counterexample: the exact steps are SQL LIKE matches, not substring
matches. On the fragment "z_" (underscore a LIKE wildcard) no Elder or
Family-Member name contains the normalized fragment — there are no family
members at all — and the fuzzy step returns not-found, yet the resolver
returns the Elder "za", because the LIKE pattern already matches it. -/
theorem c4_counterexample :
    dbZaW.users.all
      (fun u => !containsSub (normalize_name ("z_".toList)) (pyLower u.full_name)) = true ∧
    dbZaW.family_members = [] ∧
    fuzzy_step simZeroW dbZaW (normalize_name ("z_".toList)) = .ok none ∧
    find_person_by_name simZeroW dbZaW ("z_".toList) =
      .ok (some (.elder 1 ("za".toList))) :=
  ⟨by decide, rfl, by decide, by decide⟩

/-- C4 amended: resolution precedence holds with the exact steps read as SQL
LIKE containment (pattern `'%' || fragment || '%'`, `%` and `_` wildcards):
a fragment occurring as a literal substring of an Elder name always yields
an Elder reference (substring occurrence implies a LIKE match); if some
Elder row LIKE-matches, the first such row is returned as an Elder
reference; only when no Elder row LIKE-matches is the joined Family-Member
LIKE lookup used; and only when neither LIKE step matches does the resolver
run the fuzzy step. -/
theorem c4_resolution_precedence (sim : List Char → List Char → ℚ) (db : DB)
    (name : List Char) :
    (∀ u2 ∈ db.users,
        containsSub (normalize_name name) (pyLower u2.full_name) = true →
        ∃ u, db.users.find? (elderLike (normalize_name name)) = some u ∧
          find_person_by_name sim db name = .ok (some (.elder u.id u.full_name))) ∧
    (∀ u, db.users.find? (elderLike (normalize_name name)) = some u →
        find_person_by_name sim db name = .ok (some (.elder u.id u.full_name))) ∧
    (db.users.find? (elderLike (normalize_name name)) = none →
        ∀ r, (joinRows db).find? (fun r => famLike (normalize_name name) r.1) = some r →
          find_person_by_name sim db name = .ok (some (.family_member r.1.id r.1.name
            r.1.relationship_type r.1.user_id r.2.full_name))) ∧
    (db.users.find? (elderLike (normalize_name name)) = none →
        (joinRows db).find? (fun r => famLike (normalize_name name) r.1) = none →
        find_person_by_name sim db name = fuzzy_step sim db (normalize_name name)) := by
  have helder : ∀ u, db.users.find? (elderLike (normalize_name name)) = some u →
      find_person_by_name sim db name = .ok (some (.elder u.id u.full_name)) := by
    intro u hu
    simp only [find_person_by_name, hu]
  refine ⟨?_, helder, ?_, ?_⟩
  · intro u2 hmem hsub
    have hlike : elderLike (normalize_name name) u2 = true := by
      unfold elderLike
      exact sqlLike_of_containsSub _ _ hsub
    cases hfind : db.users.find? (elderLike (normalize_name name)) with
    | none =>
        have := List.find?_eq_none.mp hfind u2 hmem
        exact absurd hlike this
    | some u => exact ⟨u, rfl, helder u hfind⟩
  · intro h1 r hr
    simp only [find_person_by_name, h1, hr]
  · intro h1 h2
    simp only [find_person_by_name, h1, h2]

/-- Witness for C4: on a database whose lone Elder name contains the
normalized fragment, the resolver returns that Elder reference. -/
theorem c4_witness :
    find_person_by_name simZeroW dbSharmaW ("sarita".toList) =
      .ok (some (.elder 1 ("Sarita Sharma".toList))) :=
  (c4_resolution_precedence simZeroW dbSharmaW ("sarita".toList)).2.1
    ⟨1, "Sarita Sharma".toList, "elder".toList, none⟩ (by decide)

/-- C5: a child-name query whose subject resolves to an Elder answers by the
number of family members carrying the matching relationship label: none
gives a successful reply with a null answer and a none-exist message;
exactly one gives the singular message naming the child, the name as
answer; two or more give the plural message listing all names joined by
commas, with the list as answer. -/
theorem c5_child_name_policy (sim : List Char → List Char → ℚ)
    (jparse : List Char → Except (List Char) (List (List Char × List Char)))
    (db : DB) (frag : List Char) (intent : Intent) (uid : Nat) (enm : List Char)
    (kids : List MemberInfo)
    (_hint : intent = .daughter_name ∨ intent = .son_name)
    (hf : find_person_by_name sim db frag = .ok (some (.elder uid enm)))
    (hk : get_family_members jparse db uid (some (childRel intent)) = .ok kids) :
    (kids = [] → handle_child_query sim jparse db frag intent = .ok
        { success := true,
          message := enm ++ " doesn\x27t have any ".toList ++ childRel intent ++
            "s in the database.".toList,
          answer := some .null }) ∧
    (∀ c, kids = [c] → handle_child_query sim jparse db frag intent = .ok
        { success := true,
          message := enm ++ "\x27s ".toList ++ childRel intent ++ " is ".toList ++
            c.name ++ ".".toList,
          answer := some (.str c.name),
          details := some (.member c) }) ∧
    (2 ≤ kids.length → handle_child_query sim jparse db frag intent = .ok
        { success := true,
          message := enm ++ " has ".toList ++ natToStr kids.length ++ " ".toList ++
            childRel intent ++ "s: ".toList ++ joinComma (kids.map (·.name)) ++
            ".".toList,
          answer := some (.list (kids.map (·.name))),
          details := some (.members kids) }) := by
  refine ⟨?_, ?_, ?_⟩
  · intro h
    subst h
    simp only [handle_child_query, hf, Person.isElder, Person.user_id, Person.pname,
      hk, if_true]
  · intro c h
    subst h
    simp only [handle_child_query, hf, Person.isElder, Person.user_id, Person.pname,
      hk, if_true]
  · intro hlen
    rcases kids with _ | ⟨a, _ | ⟨b, rest⟩⟩
    · simp at hlen
    · simp at hlen
    · simp only [handle_child_query, hf, Person.isElder, Person.user_id, Person.pname,
        hk, if_true]

/-- Witness for C5: Elder Sarita Sharma has two rows whose relationship
label equals "daughter" case-insensitively, so the daughter-name query
returns the plural reply listing both names. -/
theorem c5_witness :
    handle_child_query simZeroW jparseEmptyW dbSharmaW ("sarita".toList)
        Intent.daughter_name = .ok
      { success := true,
        message := "Sarita Sharma has 2 daughters: Meeta Sharma, Gita Sharma.".toList,
        answer := some (.list ["Meeta Sharma".toList, "Gita Sharma".toList]),
        details := some (.members
          [⟨1, "Meeta Sharma".toList, "daughter".toList, none, none, none, none, none⟩,
           ⟨2, "Gita Sharma".toList, "Daughter".toList, none, none, none, none, none⟩]) } := by
  have h := (c5_child_name_policy simZeroW jparseEmptyW dbSharmaW ("sarita".toList)
      Intent.daughter_name 1 ("Sarita Sharma".toList)
      [⟨1, "Meeta Sharma".toList, "daughter".toList, none, none, none, none, none⟩,
       ⟨2, "Gita Sharma".toList, "Daughter".toList, none, none, none, none, none⟩]
      (Or.inl rfl) (by decide) (by decide)).2.2 (by decide)
  rw [h]
  decide

/-- C6: a relationship query whose two names both resolve succeeds exactly
when both resolved persons carry the same owning-elder identifier and one
is the Elder while the other is a Family Member; the successful answer is
the Family Member relationship label, and every other combination yields
the could-not-determine failure. -/
theorem c6_relationship_policy (sim : List Char → List Char → ℚ) (db : DB)
    (n1 n2 : List Char) (q1 q2 : Person)
    (hf1 : find_person_by_name sim db n1 = .ok (some q1))
    (hf2 : find_person_by_name sim db n2 = .ok (some q2)) :
    (q1.user_id = q2.user_id → q1.isElder = true → q2.isFamilyMember = true →
        handle_relationship_query sim db n1 n2 = .ok
          { success := true,
            message := q2.pname ++ " is ".toList ++ q1.pname ++ "\x27s ".toList ++
              q2.famRel ++ ".".toList,
            answer := some (.str q2.famRel) }) ∧
    (q1.user_id = q2.user_id → q2.isElder = true → q1.isFamilyMember = true →
        handle_relationship_query sim db n1 n2 = .ok
          { success := true,
            message := q1.pname ++ " is ".toList ++ q2.pname ++ "\x27s ".toList ++
              q1.famRel ++ ".".toList,
            answer := some (.str q1.famRel) }) ∧
    (¬(q1.user_id = q2.user_id ∧
        ((q1.isElder = true ∧ q2.isFamilyMember = true) ∨
         (q2.isElder = true ∧ q1.isFamilyMember = true))) →
        handle_relationship_query sim db n1 n2 = .ok (couldntDetermine n1 n2)) ∧
    (∀ r, handle_relationship_query sim db n1 n2 = .ok r →
        (r.success = true ↔ (q1.user_id = q2.user_id ∧
          ((q1.isElder = true ∧ q2.isFamilyMember = true) ∨
           (q2.isElder = true ∧ q1.isFamilyMember = true))))) := by
  have hA : q1.user_id = q2.user_id → q1.isElder = true → q2.isFamilyMember = true →
      handle_relationship_query sim db n1 n2 = .ok
        { success := true,
          message := q2.pname ++ " is ".toList ++ q1.pname ++ "\x27s ".toList ++
            q2.famRel ++ ".".toList,
          answer := some (.str q2.famRel) } := by
    intro hu h1 h2
    simp only [handle_relationship_query, hf1, hf2, if_pos hu, h1, h2, if_pos]
    simp [h1, h2]
  have hB : q1.user_id = q2.user_id → q2.isElder = true → q1.isFamilyMember = true →
      handle_relationship_query sim db n1 n2 = .ok
        { success := true,
          message := q1.pname ++ " is ".toList ++ q2.pname ++ "\x27s ".toList ++
            q1.famRel ++ ".".toList,
          answer := some (.str q1.famRel) } := by
    intro hu h1 h2
    have hq1 : q1.isElder = false := by
      cases q1 <;> simp [Person.isElder, Person.isFamilyMember] at h2 ⊢
    simp only [handle_relationship_query, hf1, hf2, if_pos hu]
    rw [if_neg (by simp [hq1]), if_pos ⟨h1, h2⟩]
  have hC : ¬(q1.user_id = q2.user_id ∧
      ((q1.isElder = true ∧ q2.isFamilyMember = true) ∨
       (q2.isElder = true ∧ q1.isFamilyMember = true))) →
      handle_relationship_query sim db n1 n2 = .ok (couldntDetermine n1 n2) := by
    intro hng
    by_cases hu : q1.user_id = q2.user_id
    · have hnA : ¬(q1.isElder = true ∧ q2.isFamilyMember = true) := by
        intro hAB
        exact hng ⟨hu, Or.inl hAB⟩
      have hnB : ¬(q2.isElder = true ∧ q1.isFamilyMember = true) := by
        intro hAB
        exact hng ⟨hu, Or.inr hAB⟩
      simp only [handle_relationship_query, hf1, hf2, if_pos hu]
      rw [if_neg hnA, if_neg hnB]
    · simp only [handle_relationship_query, hf1, hf2]
      rw [if_neg hu]
  refine ⟨hA, hB, hC, ?_⟩
  intro r hr
  constructor
  · intro hsucc
    by_contra hng
    have hc := hC hng
    rw [hr] at hc
    have := Except.ok.inj hc
    rw [this] at hsucc
    simp [couldntDetermine] at hsucc
  · intro hcond
    rcases hcond with ⟨hu, ⟨h1, h2⟩ | ⟨h1, h2⟩⟩
    · have ha := hA hu h1 h2
      rw [hr] at ha
      rw [Except.ok.inj ha]
    · have hb := hB hu h1 h2
      rw [hr] at hb
      rw [Except.ok.inj hb]

/-- Witness for C6: Meeta Sharma resolves as a Family Member and Sarita
Sharma as her owning Elder, so the relationship query succeeds with the
label "daughter". -/
theorem c6_witness :
    handle_relationship_query simZeroW dbSharmaW ("meeta".toList) ("sarita".toList) =
      .ok { success := true,
            message := "Meeta Sharma is Sarita Sharma\x27s daughter.".toList,
            answer := some (.str ("daughter".toList)) } := by
  have h := (c6_relationship_policy simZeroW dbSharmaW ("meeta".toList)
      ("sarita".toList)
      (.family_member 1 ("Meeta Sharma".toList) ("daughter".toList) 1
        ("Sarita Sharma".toList))
      (.elder 1 ("Sarita Sharma".toList)) (by decide) (by decide)).2.1
    rfl rfl rfl
  rw [h]
  decide

/-- C7 counterexample: the Peswani dispatcher has no exception handler, so a
store failure inside intent handling propagates to the caller: with the
cached father row holding a NULL notes column, the father query raises the
`re.search` TypeError instead of returning a structured result. -/
theorem c7_counterexample :
    peswani_query fatherMatcherW cacheNullNotesW ("Who is my father?".toList) =
      .error reSearchNoneError := by decide

/-- C7 amended: the generic engine's dispatcher always hands back a
structured result: the unknown intent returns the canned reply, a handler
that completes returns its reply unchanged, and any failure raised inside
intent handling or store access is caught and converted into a
`success=false` reply carrying the error message. (The Peswani variant's
dispatcher performs no such conversion — see the counterexample.) -/
theorem c7_dispatcher_conversion (M : List Char → List Char → Option (List (List Char)))
    (sim : List Char → List Char → ℚ)
    (jparse : List Char → Except (List Char) (List (List Char × List Char)))
    (fromiso : List Char → Except (List Char) PyDatetime) (db : DB) (q : List Char) :
    ((parse_query M q).intent = .unknown →
        query M sim jparse fromiso db q = unknownResult) ∧
    (∀ r, (parse_query M q).intent ≠ .unknown →
        queryBody sim jparse fromiso db (parse_query M q) = .ok r →
        query M sim jparse fromiso db q = r) ∧
    (∀ e, (parse_query M q).intent ≠ .unknown →
        queryBody sim jparse fromiso db (parse_query M q) = .error e →
        query M sim jparse fromiso db q =
          { success := false,
            message := "Sorry, I encountered an error processing your question: ".toList ++ e,
            error := some e }) := by
  refine ⟨?_, ?_, ?_⟩
  · intro hu
    simp only [query]
    rw [if_pos hu]
  · intro r hu hb
    simp only [query]
    rw [if_neg hu, hb]
  · intro e hu hb
    simp only [query]
    rw [if_neg hu, hb]

/-- Witness for C7: a matcher that matches the first pattern with an empty
capture tuple drives the daughter handler into an IndexError, which the
dispatcher converts into a structured failure reply. -/
theorem c7_witness :
    query emptyCaptureMatcherW simZeroW jparseEmptyW fromisoFailW dbSharmaW
        ("hello".toList) =
      { success := false,
        message := "Sorry, I encountered an error processing your question: IndexError: tuple index out of range".toList,
        error := some ("IndexError: tuple index out of range".toList) } := by
  have h := (c7_dispatcher_conversion emptyCaptureMatcherW simZeroW jparseEmptyW
      fromisoFailW dbSharmaW ("hello".toList)).2.2
    ("IndexError: tuple index out of range".toList) (by decide) (by decide)
  rw [h]
  decide

/-- C8 counterexample: the tie-break is scan order, not lowest identifier.
Both the Elder (id 7) and the Family Member (id 2) are displayed as "Ravi"
and receive the same ratio 0.8 on the fragment "ravi x"; both exact steps
fail, so the fuzzy step decides — and it returns the Elder with id 7,
although the tied candidate with the lowest identifier is id 2. -/
theorem c8_counterexample :
    all_names dbRaviW =
      [(7, "Ravi".toList, PType.elder), (2, "Ravi".toList, PType.family)] ∧
    candRatio simRaviW (normalize_name ("ravi x".toList))
        (7, "Ravi".toList, PType.elder) =
      candRatio simRaviW (normalize_name ("ravi x".toList))
        (2, "Ravi".toList, PType.family) ∧
    candRatio simRaviW (normalize_name ("ravi x".toList))
        (7, "Ravi".toList, PType.elder) > simThreshold ∧
    dbRaviW.users.find? (elderLike (normalize_name ("ravi x".toList))) = none ∧
    (joinRows dbRaviW).find?
        (fun r => famLike (normalize_name ("ravi x".toList)) r.1) = none ∧
    2 < 7 ∧
    find_person_by_name simRaviW dbRaviW ("ravi x".toList) =
      .ok (some (.elder 7 ("Ravi".toList))) := by decide

/-- C8 amended: the fuzzy selection over the scan order of `all_names`
(every Elder row, then every Family-Member row) is deterministic and breaks
ties by position: the selected candidate is above the 0.6 threshold, every
candidate scanned before it has a strictly smaller ratio (so on an exact tie
the earlier candidate wins), and no candidate anywhere has a larger one. -/
theorem c8_tie_break_scan_order (sim : List Char → List Char → ℚ) (db : DB)
    (t : List Char) (c : Nat × List Char × PType)
    (h : bestFuzzy sim t (all_names db) = some c) :
    ∃ l1 l2, all_names db = l1 ++ c :: l2 ∧ candRatio sim t c > simThreshold ∧
      (∀ d ∈ l1, candRatio sim t d < candRatio sim t c) ∧
      (∀ d ∈ l2, candRatio sim t d ≤ candRatio sim t c) :=
  bestFuzzy_decomp sim t (all_names db) c h

/-- Witness for C8: on the tied "Ravi" database the selected candidate is
the first scanned one and clears the threshold. -/
theorem c8_witness :
    candRatio simRaviW (normalize_name ("ravi x".toList))
      (7, "Ravi".toList, PType.elder) > simThreshold := by
  obtain ⟨l1, l2, _, hgt, _, _⟩ := c8_tie_break_scan_order simRaviW dbRaviW
    (normalize_name ("ravi x".toList)) (7, "Ravi".toList, PType.elder) (by decide)
  exact hgt

/-- C9 counterexample: extraction is not error-free for every possible notes
content: a NULL notes column reaches `re.search` as `None` and raises a
TypeError instead of reporting the fields as unavailable. -/
theorem c9_counterexample :
    get_person_info cacheNullNotesW ("rajesh peswani".toList) =
      .error reSearchNoneError := by decide

/-- C9 amended: for every notes string (non-NULL blob), extraction of age
and profession is best-effort: the reply is built without any error for
every string content, and whenever the `Age <digits>` or
`Age <digits>, <profession>` shape is absent the corresponding field is
reported as "unknown" rather than raising. -/
theorem c9_notes_best_effort (cache : PCache) (name : List Char)
    (kv : List Char × PMember) (s : List Char)
    (hfind : cache.find? (fun e => e.1 == pyLower name) = some kv)
    (hnotes : kv.2.notes = some s) :
    get_person_info cache name = .ok
      { success := true,
        message := kv.2.name ++ " is your ".toList ++ kv.2.relationship ++
          ". They are ".toList ++ ageOf s ++ " years old and work as a ".toList ++
          profOf s ++ ". They live in ".toList ++ showOpt kv.2.address ++ ".".toList,
        answer := some (.str kv.2.name),
        details := some (.person
          { name := kv.2.name, relationship := kv.2.relationship,
            age := ageOf s, profession := profOf s, address := kv.2.address,
            phone := kv.2.phone, email := kv.2.email }) } ∧
    (searchAge s = none → ageOf s = "unknown".toList) ∧
    (searchProf s = none → profOf s = "unknown".toList) := by
  refine ⟨?_, ?_, ?_⟩
  · simp only [get_person_info, hfind, hnotes]
  · intro h
    unfold ageOf
    rw [h]
    rfl
  · intro h
    unfold profOf
    rw [h]
    rfl

/-- Witness for C9: a notes string matching neither extraction pattern
yields a successful reply with both fields "unknown". -/
theorem c9_witness :
    get_person_info cachePlainNotesW ("Rajesh Peswani".toList) = .ok
      { success := true,
        message := "Rajesh Peswani is your father. They are unknown years old and work as a unknown. They live in Mumbai.".toList,
        answer := some (.str ("Rajesh Peswani".toList)),
        details := some (.person
          { name := "Rajesh Peswani".toList, relationship := "father".toList,
            age := "unknown".toList, profession := "unknown".toList,
            address := some ("Mumbai".toList), phone := none, email := none }) } := by
  have h := (c9_notes_best_effort cachePlainNotesW ("Rajesh Peswani".toList)
      ("rajesh peswani".toList,
        ⟨"Rajesh Peswani".toList, "father".toList, none, none,
         some ("Mumbai".toList), some ("hello".toList)⟩)
      ("hello".toList) (by decide) rfl).1
  rw [h]
  decide

/-- C10: a child-name query whose captured name resolves to a Family Member
returns a failed reply stating the person is not listed as a primary family
member, and no child lookup is performed. -/
theorem c10_family_member_subject (sim : List Char → List Char → ℚ)
    (jparse : List Char → Except (List Char) (List (List Char × List Char)))
    (db : DB) (frag : List Char) (intent : Intent) (fid : Nat) (fnm rel : List Char)
    (uid : Nat) (enm : List Char)
    (hf : find_person_by_name sim db frag =
      .ok (some (.family_member fid fnm rel uid enm))) :
    handle_child_query sim jparse db frag intent = .ok
      { success := false,
        message := fnm ++
          " is not listed as a primary family member. I can only find children of elders.".toList } := by
  simp [handle_child_query, hf, Person.isElder, Person.pname]

/-- Witness for C10: the son-name query on "meeta" resolves to Family Member
Meeta Sharma and is refused. -/
theorem c10_witness :
    handle_child_query simZeroW jparseEmptyW dbSharmaW ("meeta".toList)
        Intent.son_name = .ok
      { success := false,
        message := "Meeta Sharma is not listed as a primary family member. I can only find children of elders.".toList } := by
  have h := c10_family_member_subject simZeroW jparseEmptyW dbSharmaW
    ("meeta".toList) Intent.son_name 1 ("Meeta Sharma".toList) ("daughter".toList)
    1 ("Sarita Sharma".toList) (by decide)
  rw [h]
  decide

end DementiaCare
